import Mathlib

/-!
Shallow embedding of the core logic of the `prezlab-brain` repository
(a presentation-design-review web app), for checking its specification.

Strings are modelled as `List Char` (`Str`).  JavaScript's ASCII-relevant
behaviour of `toLowerCase`, `\w`, `\s`, `String.prototype.includes` is
modelled with `Char.toLower`, `isWordChar`, `Char.isWhitespace` and a
substring test.  JavaScript numbers appearing as timestamps/TTLs are
modelled as `Int`; counts and scores accumulated from non-negative
increments as `Nat` where the source never subtracts, `Int` otherwise.
-/

abbrev Str := List Char

/-- JS `toLowerCase`, restricted to its ASCII behaviour. -/
def lowerL (s : Str) : Str := s.map Char.toLower

/-- JS regex `\w` character class: `[A-Za-z0-9_]`. -/
def isWordChar (c : Char) : Bool := c.isAlphanum || c == '_'

/-- Does `s` start with `pat`?  (helper for the substring test). -/
def strStartsWith : Str → Str → Bool
  | [], _ => true
  | _ :: _, [] => false
  | p :: ps, c :: cs => p == c && strStartsWith ps cs

/-- JS `String.prototype.includes(pat)`: `pat` occurs as a contiguous
substring of `s`. -/
def strContains : Str → Str → Bool
  | s, pat =>
    match s with
    | [] => strStartsWith pat []
    | _ :: cs => strStartsWith pat s || strContains cs pat

namespace KnowledgeService

/-- The fixed stopword list `commonWords` of `extractKeywords`
(src/services/knowledgeService.js). -/
def commonWords : List Str :=
  ["the", "and", "or", "but", "in", "on", "at", "to", "for", "of", "with",
   "by", "is", "are", "was", "were", "be", "been", "have", "has", "had",
   "do", "does", "did", "will", "would", "could", "should"].map String.data

/-- One step of the frequency aggregation `wordCount[word] = (wordCount[word] || 0) + 1`:
increment the count of `w` in the association list `acc`, or append `(w, 1)`.
Keys of a JS object are modelled in first-appearance order. -/
def bumpCount (acc : List (Str × Nat)) (w : Str) : List (Str × Nat) :=
  if acc.any (fun p => p.1 == w) then
    acc.map (fun p => if p.1 == w then (p.1, p.2 + 1) else p)
  else
    acc ++ [(w, 1)]

/-- `extractKeywords(content)` (src/services/knowledgeService.js, lines 57-76):
lower-case, replace every character that is neither a word character nor
whitespace by a space, split on whitespace, drop tokens of length ≤ 3 or in
`commonWords`, count frequencies, sort by count descending (JS sort is
stable; `insertionSort` is a stable, kernel-computable sort), take 20,
return the words.  JS `split(/\s+/)` collapses whitespace runs while
`splitOnP` keeps empty chunks between consecutive separators; the length
filter removes those empty chunks, so the resulting `words` list is the same. -/
def extractKeywords (content : Str) : List Str :=
  let cleaned := (lowerL content).map
    (fun c => if !(isWordChar c) && !c.isWhitespace then ' ' else c)
  let words := (List.splitOnP Char.isWhitespace cleaned).filter
    (fun w => decide (w.length > 3) && !(commonWords.contains w))
  let wordCount := words.foldl bumpCount []
  ((List.insertionSort (fun a b => b.2 ≤ a.2) wordCount).take 20).map Prod.fst

/-- A document stored in the knowledge base (`knowledgeDoc` in `addDocument`).
`id` is `Date.now() + Math.random()` in the source, an ambient-state value;
it is taken as an explicit parameter of `addDocument` below, as is the
upload date. -/
structure KDoc where
  id : Int
  name : Str
  content : Str
  type : Str
  keywords : List Str
  uploadDate : Str
  size : Nat
deriving DecidableEq

/-- The in-memory knowledge base (`this.knowledgeBase`).  `lastUpdated` is
wall-clock bookkeeping with no effect on any claimed behaviour and is
omitted. -/
structure KB where
  documents : List KDoc
  designFramework : Option KDoc
deriving DecidableEq

/-- `loadKnowledgeBase()`: the empty knowledge base. -/
def emptyKB : KB := { documents := [], designFramework := none }

/-- The input to `addDocument`: the uploaded document record. -/
structure UploadDoc where
  name : Str
  content : Str
  type : Str
  size : Nat
deriving DecidableEq

/-- The name-pattern test of `addDocument`: the lower-cased name contains
`"design compass"` or `"presentation compass"`. -/
def isFrameworkName (name : Str) : Bool :=
  strContains (lowerL name) "design compass".data ||
  strContains (lowerL name) "presentation compass".data

/-- The `knowledgeDoc` record built by `addDocument`. -/
def mkKDoc (d : UploadDoc) (id : Int) (uploadDate : Str) : KDoc :=
  { id := id, name := d.name, content := d.content, type := d.type,
    keywords := extractKeywords d.content, uploadDate := uploadDate,
    size := d.size }

/-- `addDocument(document)` (src/services/knowledgeService.js, lines 24-45):
if the name matches the framework pattern the new document becomes the
designated framework (replacing any previous one), otherwise it is pushed
onto `documents`. -/
def addDocument (kb : KB) (d : UploadDoc) (id : Int) (uploadDate : Str) : KB :=
  let knowledgeDoc := mkKDoc d id uploadDate
  if isFrameworkName d.name then
    { kb with designFramework := some knowledgeDoc }
  else
    { kb with documents := kb.documents ++ [knowledgeDoc] }

/-- `removeDocument(id)` (lines 48-54): filter `documents` by id and clear
the framework if its id matches. -/
def removeDocument (kb : KB) (id : Int) : KB :=
  { documents := kb.documents.filter (fun doc => !(doc.id == id)),
    designFramework :=
      match kb.designFramework with
      | some f => if f.id == id then none else some f
      | none => none }

/-- A document as returned by `searchRelevantDocuments`: the stored document
together with its `relevanceScore`.  `isFw` records whether the entry is the
designated framework document (reference identity `doc ===
this.knowledgeBase.designFramework` in the source). -/
structure ScoredDoc where
  doc : KDoc
  isFw : Bool
  relevanceScore : Nat
deriving DecidableEq

/-- The body of the `queryKeywords.forEach` loop of
`searchRelevantDocuments` (lines 93-97): +2 if the keyword is in the
document's keyword list, +1 if it occurs in the lower-cased content, +3 if
it occurs in the lower-cased name. -/
def kwStep (doc : KDoc) (score : Nat) (keyword : Str) : Nat :=
  let s1 := if doc.keywords.contains keyword then score + 2 else score
  let s2 := if strContains (lowerL doc.content) keyword then s1 + 1 else s1
  if strContains (lowerL doc.name) keyword then s2 + 3 else s2

/-- The per-document score accumulation of `searchRelevantDocuments`
(lines 88-104): the keyword loop, then a flat +5 if the document is the
framework (`doc === this.knowledgeBase.designFramework`). -/
def scoreDoc (queryKeywords : List Str) (doc : KDoc) (isFw : Bool) : Nat :=
  let base := queryKeywords.foldl (kwStep doc) 0
  if isFw then base + 5 else base

/-- `searchRelevantDocuments(query, limit = 5)` (lines 79-110): score all
documents (framework appended last), keep scores > 0, sort by score
descending, take `limit`. -/
def searchRelevantDocuments (kb : KB) (query : Str) (limit : Nat) :
    List ScoredDoc :=
  let queryKeywords := extractKeywords query
  let allDocs : List (KDoc × Bool) :=
    kb.documents.map (fun d => (d, false)) ++
      (match kb.designFramework with
       | some f => [(f, true)]
       | none => [])
  let scoredDocs := allDocs.map
    (fun p => ScoredDoc.mk p.1 p.2 (scoreDoc queryKeywords p.1 p.2))
  ((List.insertionSort (fun a b => b.relevanceScore ≤ a.relevanceScore)
      (scoredDocs.filter (fun d => decide (d.relevanceScore > 0)))).take limit)

/-- `getAllDocuments()` (lines 113-119): all stored documents, with the
framework document appended last carrying `isFramework: true`.  The second
component models the `isFramework` flag (`undefined`, hence `false`, on the
plain documents). -/
def getAllDocuments (kb : KB) : List (KDoc × Bool) :=
  kb.documents.map (fun d => (d, false)) ++
    (match kb.designFramework with
     | some f => [(f, true)]
     | none => [])

/-- `getStats()` (lines 158-166), the fields relevant to the claims. -/
structure Stats where
  totalDocuments : Nat
  hasFramework : Bool
  documents : Nat
  frameworkName : Option Str
deriving DecidableEq

def getStats (kb : KB) : Stats :=
  { totalDocuments :=
      kb.documents.length + (if kb.designFramework.isSome then 1 else 0),
    hasFramework := kb.designFramework.isSome,
    documents := kb.documents.length,
    frameworkName := kb.designFramework.map (·.name) }

/-- A user-visible knowledge-base operation. -/
inductive KBOp where
  | add (d : UploadDoc) (id : Int) (uploadDate : Str)
  | remove (id : Int)
deriving DecidableEq

def applyOp (kb : KB) : KBOp → KB
  | .add d id date => addDocument kb d id date
  | .remove id => removeDocument kb id

/-- Run a sequence of operations from the empty knowledge base. -/
def runOps (ops : List KBOp) : KB := ops.foldl applyOp emptyKB

/-- Number of documents currently holding the framework role. -/
def frameworkCount (kb : KB) : Nat :=
  (getAllDocuments kb).countP (fun p => p.2)

end KnowledgeService

/-- A JavaScript JSON value (the shape of the `presentationAnalysis`
object handed to `buildChatContext`). -/
inductive JValue where
  | null
  | bool (b : Bool)
  | num (n : Int)
  | str (s : Str)
  | arr (xs : List JValue)
  | obj (fields : List (Str × JValue))

/-- `n` spaces (the indentation of `JSON.stringify(v, null, 2)`). -/
def pad (n : Nat) : Str := List.replicate n ' '

/-- JSON string escaping as performed by `JSON.stringify` (the escapes
relevant to the character set appearing in this development). -/
def escChar (c : Char) : Str :=
  if c == '"' then ['\\', '"']
  else if c == '\\' then ['\\', '\\']
  else if c == '\n' then ['\\', 'n']
  else if c == '\r' then ['\\', 'r']
  else if c == '\t' then ['\\', 't']
  else [c]

def escStr (s : Str) : Str := (s.map escChar).flatten

mutual

/-- `JSON.stringify(v, null, 2)` at current indentation `ind`:
objects and arrays print one element per line, nested two spaces deeper. -/
def jsonStringify : JValue → Nat → Str
  | .null, _ => "null".data
  | .bool true, _ => "true".data
  | .bool false, _ => "false".data
  | .num n, _ => (toString n).data
  | .str s, _ => '"' :: escStr s ++ ['"']
  | .arr [], _ => "[]".data
  | .arr (x :: xs), ind =>
      "[\n".data ++ jsonStringifyItems (x :: xs) (ind + 2) ++
        "\n".data ++ pad ind ++ "]".data
  | .obj [], _ => "\x7b\x7d".data
  | .obj (f :: fs), ind =>
      "\x7b\n".data ++ jsonStringifyFields (f :: fs) (ind + 2) ++
        "\n".data ++ pad ind ++ "\x7d".data

/-- Array items, each on its own line at indentation `ind`, comma-separated. -/
def jsonStringifyItems : List JValue → Nat → Str
  | [], _ => []
  | [v], ind => pad ind ++ jsonStringify v ind
  | v :: w :: rest, ind =>
      pad ind ++ jsonStringify v ind ++ ",\n".data ++
        jsonStringifyItems (w :: rest) ind

/-- Object fields, each on its own line at indentation `ind`, comma-separated. -/
def jsonStringifyFields : List (Str × JValue) → Nat → Str
  | [], _ => []
  | [(k, v)], ind =>
      pad ind ++ '"' :: escStr k ++ "\": ".data ++ jsonStringify v ind
  | (k, v) :: f :: rest, ind =>
      pad ind ++ '"' :: escStr k ++ "\": ".data ++ jsonStringify v ind ++
        ",\n".data ++ jsonStringifyFields (f :: rest) ind

end

/-- JS truthiness: `false`, `0`, `""`, `null` (and `undefined`, modelled as
an absent `Option`) are falsy; every object and array is truthy. -/
def jsFalsy : JValue → Bool
  | .null => true
  | .bool b => !b
  | .num n => n == 0
  | .str s => s.isEmpty
  | .arr _ => false
  | .obj _ => false

mutual

/-- JS `String(v)` coercion as used by template literals. -/
def jsToStr : JValue → Str
  | .null => "null".data
  | .bool true => "true".data
  | .bool false => "false".data
  | .num n => (toString n).data
  | .str s => s
  | .arr xs => jsToStrJoin xs
  | .obj _ => "[object Object]".data

/-- JS `Array.prototype.toString`: elements joined with commas. -/
def jsToStrJoin : List JValue → Str
  | [] => []
  | [v] => jsToStr v
  | v :: w :: rest => jsToStr v ++ ",".data ++ jsToStrJoin (w :: rest)

end

/-- JS property access `v[k]`: defined only on objects, `undefined`
(`none`) otherwise. -/
def getField (v : JValue) (k : Str) : Option JValue :=
  match v with
  | .obj fs => (fs.find? (fun p => p.1 == k)).map (·.2)
  | _ => none

namespace KnowledgeService

/-- An entry of the `chatHistory` argument of `buildChatContext`. -/
structure ChatMsg where
  role : Str
  content : Str
deriving DecidableEq

/-- JS `list.slice(-n)`: the last `n` entries (all of them when the list is
shorter). -/
def lastN (n : Nat) (l : List ChatMsg) : List ChatMsg := l.drop (l.length - n)

/-- `presentationAnalysis.presentationType?.primary || 'Unknown'`
(line 142). -/
def primaryOf (a : JValue) : Str :=
  match (getField a "presentationType".data).bind
      (fun t => getField t "primary".data) with
  | some v => if jsFalsy v then "Unknown".data else jsToStr v
  | none => "Unknown".data

/-- One line of the history section (line 151): `'user'` entries are
labelled `Designer`, all others `AI`. -/
def historyLine (m : ChatMsg) : Str :=
  (if m.role == "user".data then "Designer".data else "AI".data) ++
    ": ".data ++ m.content ++ "\n".data

/-- `buildChatContext(query, presentationAnalysis = null, chatHistory = [])`
(src/services/knowledgeService.js, lines 122-156).  The four sections are
concatenated in source order: framework text (2000 chars), relevant
documents (1000 chars each), analysis (primary type plus 1500-char JSON
truncation), last-6 history entries. -/
def buildChatContext (kb : KB) (query : Str) (analysis : Option JValue)
    (history : List ChatMsg) : Str :=
  let relevantDocs := searchRelevantDocuments kb query 5
  let c1 : Str :=
    match kb.designFramework with
    | some f => "DESIGN FRAMEWORK (Design Compass):\n".data ++
        f.content.take 2000 ++ "\n\n".data
    | none => []
  let c2 : Str :=
    if relevantDocs.length > 0 then
      "RELEVANT COMPANY DOCUMENTS:\n".data ++
        (relevantDocs.map (fun d =>
          d.doc.name ++ ":\n".data ++ d.doc.content.take 1000 ++
            "\n\n".data)).flatten
    else []
  let c3 : Str :=
    match analysis with
    | some a =>
      if jsFalsy a then [] else
        "CURRENT PRESENTATION ANALYSIS:\n".data ++
          "Presentation Type: ".data ++ primaryOf a ++ "\n".data ++
          "Key Insights: ".data ++ (jsonStringify a 0).take 1500 ++
          "\n\n".data
    | none => []
  let c4 : Str :=
    if history.length > 0 then
      "RECENT CONVERSATION:\n".data ++
        ((lastN 6 history).map historyLine).flatten ++ "\n".data
    else []
  c1 ++ c2 ++ c3 ++ c4

end KnowledgeService

namespace CacheService

/-- A cache entry (`{ value, timestamp, ttl }` in src/services/cacheService.js).
Timestamps and TTLs are JS epoch-millisecond numbers, modelled as `Int`. -/
structure CEntry (V : Type) where
  value : V
  timestamp : Int
  ttl : Int
deriving DecidableEq

/-- The cache service state: the in-memory `Map` plus the `localStorage`
mirror (keys there carry a fixed `cache_` prefix, which is dropped in the
model; `JSON.stringify`/`JSON.parse` round-trip the entry and are modelled
as the identity).  Both maps are association lists in insertion order, as a
JS `Map` iterates. -/
structure CState (K V : Type) where
  cache : List (K × CEntry V)
  storage : List (K × CEntry V)
deriving DecidableEq

/-- `this.maxSize = 50`. -/
def maxSize : Nat := 50

variable {K V : Type} [DecidableEq K]

/-- JS `Map.prototype.get`. -/
def mapGet (m : List (K × CEntry V)) (k : K) : Option (CEntry V) :=
  (m.find? (fun p => decide (p.1 = k))).map (·.2)

/-- JS `Map.prototype.set`: update in place when the key exists (keeping
its insertion position), append otherwise. -/
def mapSet (m : List (K × CEntry V)) (k : K) (e : CEntry V) :
    List (K × CEntry V) :=
  if m.any (fun p => decide (p.1 = k)) then
    m.map (fun p => if p.1 = k then (k, e) else p)
  else m ++ [(k, e)]

/-- JS `Map.prototype.delete`. -/
def mapDelete (m : List (K × CEntry V)) (k : K) : List (K × CEntry V) :=
  m.filter (fun p => decide (p.1 ≠ k))

/-- `cleanup()` (lines 139-159): delete every expired entry
(`now - timestamp >= ttl`); if the map still holds `maxSize` or more
entries, sort them by timestamp ascending and delete the first
`size - maxSize + 1` of them. -/
def cleanup (st : CState K V) (now : Int) : CState K V :=
  let expiredKeys := (st.cache.filter
    (fun p => decide (now - p.2.timestamp ≥ p.2.ttl))).map (·.1)
  let c1 := expiredKeys.foldl (fun m k => mapDelete m k) st.cache
  let c2 :=
    if c1.length ≥ maxSize then
      let entries :=
        List.insertionSort (fun a b => a.2.timestamp ≤ b.2.timestamp) c1
      let toRemove := entries.take (c1.length - maxSize + 1)
      toRemove.foldl (fun m p => mapDelete m p.1) c1
    else c1
  { st with cache := c2 }

/-- `set(key, value, ttl = this.defaultTTL)` (lines 40-60): run `cleanup`
first when the map is full, then store `{ value, timestamp: Date.now(), ttl }`
in the map and in `localStorage`. -/
def set (st : CState K V) (k : K) (v : V) (ttl : Int) (now : Int) :
    CState K V :=
  let st1 := if st.cache.length ≥ maxSize then cleanup st now else st
  let e : CEntry V := { value := v, timestamp := now, ttl := ttl }
  { cache := mapSet st1.cache k e, storage := mapSet st1.storage k e }

/-- The `localStorage` fallback half of `get` (lines 78-93): a stored,
still-valid entry is restored into the memory map and returned; an expired
one is removed. -/
def getFromStorage (st : CState K V) (k : K) (now : Int) :
    Option V × CState K V :=
  match mapGet st.storage k with
  | some e =>
    if now - e.timestamp < e.ttl then
      (some e.value, { st with cache := mapSet st.cache k e })
    else (none, { st with storage := mapDelete st.storage k })
  | none => (none, st)

/-- `get(key)` (lines 65-97): a valid memory entry is returned; an expired
one is deleted and the `localStorage` fallback consulted; `null` (modelled
as `none`) when nothing valid is found. -/
def get (st : CState K V) (k : K) (now : Int) : Option V × CState K V :=
  match mapGet st.cache k with
  | some e =>
    if now - e.timestamp < e.ttl then (some e.value, st)
    else getFromStorage { st with cache := mapDelete st.cache k } k now
  | none => getFromStorage st k now

end CacheService

namespace FileParser

/-- The decoded `POST /parse-pptx` HTTP response as seen by
`parsePowerPointWithPython` (src/services/fileParser.js, lines 86-113):
`ok` is `response.ok` (status in the 2xx range); `text_content` is `none`
when the JSON body lacks the field (`undefined`/`null`). -/
structure ParseResponse where
  ok : Bool
  slide_count : Int
  text_content : Option Str
  slides : JValue
  metadata : List (Str × JValue)

/-- The parsed result the caller returns on success. -/
structure ParsedPPTX where
  slideCount : Int
  textContent : Str
  slides : JValue

/-- The validation performed on the parse response: an error is raised when
the HTTP status is not 2xx, or `!result.text_content` (absent or empty),
or the content is shorter than 50 characters; otherwise the parsed result
is returned.  (The preceding `/health` probe concerns a separate response
and is outside this function's claim.) -/
def handleParseResponse (resp : ParseResponse) : Except Str ParsedPPTX :=
  if !resp.ok then
    .error "Python parser error".data
  else
    let falsyText :=
      match resp.text_content with
      | none => true
      | some s => s.isEmpty
    if falsyText || decide ((resp.text_content.getD []).length < 50) then
      .error "Python parser returned insufficient content".data
    else
      .ok { slideCount := resp.slide_count,
            textContent := resp.text_content.getD [],
            slides := resp.slides }

end FileParser

namespace SlideQuality

/-- A slide record as described by the spec (§3 "Slide Record"): text
content, layout label and per-slide element counts. -/
structure SlideRec where
  text : Str
  layout : Str
  imageCount : Nat
  chartCount : Nat
  tableCount : Nat
  textBoxCount : Nat
  shapeCount : Nat
deriving DecidableEq

/-- Word count per the spec §4.3: whitespace-split non-empty tokens. -/
def wordCount (s : SlideRec) : Nat :=
  ((List.splitOnP Char.isWhitespace s.text).filter (fun w => !w.isEmpty)).length

/-- Modelled from the spec: `scoreSlide` of §4.3 is absent from the source
tree (only `chatService.js` refers to its output, the "SLIDE QUALITY
SUMMARY"); the formula is taken verbatim from §4.3:
base = min(100, floor(wordCount / 20)); plus `textBoxCount * 2`; plus 5 when
`shapeCount > 15`; plus 20 when there are no images/charts/tables and more
than 30 words; minus 10 when the layout label contains "title"
(case-insensitive). -/
def scoreSlide (s : SlideRec) : Int :=
  let base : Int := min 100 (wordCount s / 20)
  let b2 := base + s.textBoxCount * 2
  let b3 := if s.shapeCount > 15 then b2 + 5 else b2
  let b4 := if s.imageCount + s.chartCount + s.tableCount == 0 &&
      wordCount s > 30 then b3 + 20 else b3
  if strContains (lowerL s.layout) "title".data then b4 - 10 else b4

end SlideQuality

/-! Concrete fixtures used by witnesses and counterexamples. -/

namespace Fixtures

open KnowledgeService SlideQuality

/-- A designated framework document whose name contains the keyword
`compass`, while its keyword list and content do not. -/
def fwDoc : KDoc :=
  { id := 1, name := "Design Compass v2.pdf".data, content := "short".data,
    type := "general".data, keywords := [], uploadDate := [], size := 0 }

/-- An upload whose name matches the framework pattern. -/
def fwUpload : UploadDoc :=
  { name := "Design Compass v2.pdf".data,
    content := "framework content about layout".data,
    type := "general".data, size := 10 }

/-- A small knowledge base holding one framework document. -/
def kbFw : KB := addDocument emptyKB fwUpload 1 []

/-- An analysis object carrying a non-empty `slides` list. -/
def analysisWithSlides : JValue :=
  JValue.obj
    [("presentationType".data,
        JValue.obj [("primary".data, JValue.str "Executive".data)]),
     ("slides".data,
        JValue.arr [JValue.obj [("slideNumber".data, JValue.num 1)]])]

/-- A single user chat message. -/
def userMsg : ChatMsg := { role := "user".data, content := "hi".data }

/-- A title-layout slide and an otherwise identical content-layout slide. -/
def titleSlide : SlideRec :=
  { text := "quarterly revenue growth overview".data, layout := "Title Slide".data,
    imageCount := 0, chartCount := 0, tableCount := 0,
    textBoxCount := 2, shapeCount := 3 }

def contentSlide : SlideRec :=
  { text := "quarterly revenue growth overview".data, layout := "content".data,
    imageCount := 0, chartCount := 0, tableCount := 0,
    textBoxCount := 2, shapeCount := 3 }

/-- An empty cache state over `Nat` keys and values. -/
def emptyCache : CacheService.CState Nat Nat := { cache := [], storage := [] }

/-- A 2xx parse response carrying 60 characters of text content. -/
def goodResp : FileParser.ParseResponse :=
  { ok := true, slide_count := 3,
    text_content := some (List.replicate 60 'a'),
    slides := JValue.arr [], metadata := [] }

end Fixtures

/-! ## Theorems -/

open KnowledgeService CacheService FileParser SlideQuality Fixtures

theorem mem_bumpCount {acc : List (Str × Nat)} {w : Str} {p : Str × Nat}
    (hp : p ∈ bumpCount acc w) : (∃ q ∈ acc, p.1 = q.1) ∨ p.1 = w := by
  unfold bumpCount at hp
  by_cases h : acc.any (fun p => p.1 == w)
  · simp only [h, if_pos] at hp
    rcases List.mem_map.mp hp with ⟨q, hq, hqe⟩
    by_cases h2 : q.1 == w
    · simp only [h2, if_pos] at hqe
      right
      rw [← hqe]
      exact eq_of_beq h2
    · simp only [h2] at hqe
      simp only [Bool.false_eq_true, if_false] at hqe
      left
      exact ⟨q, hq, by rw [← hqe]⟩
  · simp only [h, Bool.false_eq_true, if_false, List.mem_append] at hp
    rcases hp with hp | hp
    · exact Or.inl ⟨p, hp, rfl⟩
    · simp only [List.mem_singleton] at hp
      right
      rw [hp]

theorem mem_foldl_bumpCount {ws : List Str} {init : List (Str × Nat)}
    {p : Str × Nat} (hp : p ∈ ws.foldl bumpCount init) :
    (∃ q ∈ init, p.1 = q.1) ∨ p.1 ∈ ws := by
  induction ws generalizing init with
  | nil => exact Or.inl ⟨p, hp, rfl⟩
  | cons w ws ih =>
    simp only [List.foldl_cons] at hp
    rcases ih hp with ⟨q, hq, hqe⟩ | h
    · rcases mem_bumpCount hq with ⟨r, hr, hre⟩ | h2
      · exact Or.inl ⟨r, hr, hqe.trans hre⟩
      · exact Or.inr (by rw [hqe, h2]; exact List.mem_cons_self w ws)
    · exact Or.inr (List.mem_cons_of_mem w h)

/-- Every keyword returned by `extractKeywords` is one of the filtered
tokens. -/
theorem extractKeywords_mem_words {content : Str} {k : Str}
    (hk : k ∈ extractKeywords content) :
    k ∈ (List.splitOnP Char.isWhitespace ((lowerL content).map
      (fun c => if !(isWordChar c) && !c.isWhitespace then ' ' else c))).filter
      (fun w => decide (w.length > 3) && !(commonWords.contains w)) := by
  unfold extractKeywords at hk
  rcases List.mem_map.mp hk with ⟨p, hp, hpe⟩
  have hp2 := (List.perm_insertionSort _ _).subset (List.take_subset 20 _ hp)
  rcases mem_foldl_bumpCount hp2 with ⟨q, hq, _⟩ | h
  · exact absurd hq (List.not_mem_nil q)
  · rw [← hpe]; exact h

/-- C3: `extractKeywords` returns at most 20 strings, none of length ≤ 3,
and is deterministic (identical input text yields the identical ordered
output sequence). -/
theorem C3_extractKeywords_bounded (text : Str) :
    (extractKeywords text).length ≤ 20 ∧
    (∀ w ∈ extractKeywords text, ¬ w.length ≤ 3) ∧
    (∀ t2 : Str, text = t2 → extractKeywords text = extractKeywords t2) := by
  refine ⟨?_, ?_, ?_⟩
  · unfold extractKeywords
    rw [List.length_map]
    exact List.length_take_le 20 _
  · intro w hw
    have h := List.mem_filter.mp (extractKeywords_mem_words hw)
    have h2 := h.2
    simp only [Bool.and_eq_true, decide_eq_true_eq] at h2
    omega
  · intro t2 ht
    rw [ht]

theorem C3_witness :
    ("design".data ∈ extractKeywords "design design tools".data) ∧
    ¬ ("design".data : Str).length ≤ 3 ∧
    extractKeywords "design design tools".data =
      extractKeywords "design design tools".data :=
  ⟨by decide,
   (C3_extractKeywords_bounded "design design tools".data).2.1 _ (by decide),
   (C3_extractKeywords_bounded "design design tools".data).2.2 _ rfl⟩

/-- C1: `searchRelevantDocuments(query, limit)` returns only entries with
`relevanceScore > 0`, at most `limit` entries, and entries sorted by
`relevanceScore` descending. -/
theorem C1_search_filtered_bounded_sorted (kb : KB) (query : Str)
    (limit : Nat) :
    (∀ d ∈ searchRelevantDocuments kb query limit, 0 < d.relevanceScore) ∧
    (searchRelevantDocuments kb query limit).length ≤ limit ∧
    (searchRelevantDocuments kb query limit).Pairwise
      (fun a b => b.relevanceScore ≤ a.relevanceScore) := by
  refine ⟨?_, ?_, ?_⟩
  · intro d hd
    unfold searchRelevantDocuments at hd
    have h2 := (List.perm_insertionSort _ _).subset (List.take_subset _ _ hd)
    have h3 := (List.mem_filter.mp h2).2
    simpa using h3
  · unfold searchRelevantDocuments
    exact List.length_take_le limit _
  · unfold searchRelevantDocuments
    have htot : IsTotal ScoredDoc
        (fun a b => b.relevanceScore ≤ a.relevanceScore) :=
      ⟨fun a b => Nat.le_total b.relevanceScore a.relevanceScore⟩
    have htr : IsTrans ScoredDoc
        (fun a b => b.relevanceScore ≤ a.relevanceScore) :=
      ⟨fun _ _ _ h1 h2 => le_trans h2 h1⟩
    exact List.Pairwise.sublist (List.take_sublist _ _)
      (List.sorted_insertionSort _ _)

theorem C1_witness :
    (ScoredDoc.mk (mkKDoc fwUpload 1 []) true 11 ∈
      searchRelevantDocuments kbFw "design compass".data 5) ∧
    0 < (ScoredDoc.mk (mkKDoc fwUpload 1 []) true 11).relevanceScore ∧
    (searchRelevantDocuments kbFw "design compass".data 5).length ≤ 5 ∧
    (searchRelevantDocuments kbFw "design compass".data 5).Pairwise
      (fun a b => b.relevanceScore ≤ a.relevanceScore) :=
  ⟨by decide,
   (C1_search_filtered_bounded_sorted kbFw "design compass".data 5).1 _
     (by decide),
   (C1_search_filtered_bounded_sorted kbFw "design compass".data 5).2.1,
   (C1_search_filtered_bounded_sorted kbFw "design compass".data 5).2.2⟩

/-- The keyword-loop step adds a score increment independent of the
accumulator. -/
theorem kwStep_add (d : KDoc) (s : Nat) (k : Str) :
    kwStep d s k = s + kwStep d 0 k := by
  simp only [kwStep]
  split_ifs <;> omega

/-- A keyword matching nothing contributes nothing. -/
theorem kwStep_nomatch {d : KDoc} {k : Str}
    (h1 : d.keywords.contains k = false)
    (h2 : strContains (lowerL d.content) k = false)
    (h3 : strContains (lowerL d.name) k = false) (s : Nat) :
    kwStep d s k = s := by
  have h1m : k ∉ d.keywords := by simpa using h1
  simp [kwStep, h1m, h2, h3]

/-- A keyword matching only the document name contributes exactly 3. -/
theorem kwStep_nameOnly {d : KDoc} {k : Str}
    (h1 : d.keywords.contains k = false)
    (h2 : strContains (lowerL d.content) k = false)
    (h3 : strContains (lowerL d.name) k = true) (s : Nat) :
    kwStep d s k = s + 3 := by
  have h1m : k ∉ d.keywords := by simpa using h1
  simp [kwStep, h1m, h2, h3]

theorem foldl_kwStep_nomatch {d : KDoc} {l : List Str}
    (h : ∀ k ∈ l, d.keywords.contains k = false ∧
      strContains (lowerL d.content) k = false ∧
      strContains (lowerL d.name) k = false) (s : Nat) :
    l.foldl (kwStep d) s = s := by
  induction l generalizing s with
  | nil => rfl
  | cons a l ih =>
    have ha := h a (List.mem_cons_self a l)
    rw [List.foldl_cons, kwStep_nomatch ha.1 ha.2.1 ha.2.2]
    exact ih (fun k hk => h k (List.mem_cons_of_mem a hk)) s

/-- C2: for a framework document where exactly one query keyword matches,
and only as a substring of the document's name, the relevance score is
3 + 5 = 8: the +5 framework bonus is applied once and is additive with the
per-keyword components. -/
theorem C2_framework_bonus (kws : List Str) (k : Str) (d : KDoc)
    (hcount : kws.count k = 1)
    (hothers : ∀ k2 ∈ kws, k2 ≠ k → d.keywords.contains k2 = false ∧
      strContains (lowerL d.content) k2 = false ∧
      strContains (lowerL d.name) k2 = false)
    (hkw : d.keywords.contains k = false)
    (hcontent : strContains (lowerL d.content) k = false)
    (hname : strContains (lowerL d.name) k = true) :
    scoreDoc kws d true = 8 := by
  have hbase : kws.foldl (kwStep d) 0 = 3 := by
    induction kws with
    | nil => simp at hcount
    | cons a l ih =>
      by_cases ha : a = k
      · subst ha
        have hl : l.count a = 0 := by
          rw [List.count_cons_self] at hcount
          omega
        have hnm : ∀ x ∈ l, d.keywords.contains x = false ∧
            strContains (lowerL d.content) x = false ∧
            strContains (lowerL d.name) x = false := by
          intro x hx
          have hxa : x ≠ a := fun he => (List.count_eq_zero.mp hl) (he ▸ hx)
          exact hothers x (List.mem_cons_of_mem a hx) hxa
        rw [List.foldl_cons, kwStep_nameOnly hkw hcontent hname,
          foldl_kwStep_nomatch hnm]
      · have ha2 := hothers a (List.mem_cons_self a l) ha
        rw [List.foldl_cons, kwStep_nomatch ha2.1 ha2.2.1 ha2.2.2]
        refine ih ?_ ?_
        · rw [List.count_cons, beq_eq_false_iff_ne.mpr ha] at hcount
          simpa using hcount
        · intro k2 hk2 hne
          exact hothers k2 (List.mem_cons_of_mem a hk2) hne
  simp [scoreDoc, hbase]

theorem C2_witness :
    (["compass".data] : List Str).count "compass".data = 1 ∧
    fwDoc.keywords.contains "compass".data = false ∧
    strContains (lowerL fwDoc.content) "compass".data = false ∧
    strContains (lowerL fwDoc.name) "compass".data = true ∧
    scoreDoc ["compass".data] fwDoc true = 8 :=
  ⟨by decide, by decide, by decide, by decide,
   C2_framework_bonus ["compass".data] "compass".data fwDoc (by decide)
     (by decide) (by decide) (by decide) (by decide)⟩

/-- In any knowledge-base state at most one document holds the framework
role (the role is the single `designFramework` slot). -/
theorem frameworkCount_le_one (kb : KB) : frameworkCount kb ≤ 1 := by
  unfold frameworkCount getAllDocuments
  rw [List.countP_append]
  have h0 : (kb.documents.map (fun d => (d, false))).countP
      (fun p => p.2) = 0 := by
    rw [List.countP_eq_zero]
    intro a ha
    rcases List.mem_map.mp ha with ⟨d, _, hde⟩
    simp [← hde]
  rw [h0]
  cases kb.designFramework <;> simp

/-- C5: over every operation sequence from the empty knowledge base at most
one document holds the framework role; adding a framework-pattern-named
document replaces the previous holder (and adds nothing to `documents`);
removing the framework's id clears the role. -/
theorem C5_framework_exclusive :
    (∀ ops : List KBOp, frameworkCount (runOps ops) ≤ 1) ∧
    (∀ (kb : KB) (d : UploadDoc) (id : Int) (date : Str),
      isFrameworkName d.name = true →
        (addDocument kb d id date).designFramework =
          some (mkKDoc d id date) ∧
        (addDocument kb d id date).documents = kb.documents) ∧
    (∀ (kb : KB) (f : KDoc), kb.designFramework = some f →
      (removeDocument kb f.id).designFramework = none) := by
  refine ⟨fun ops => frameworkCount_le_one (runOps ops), ?_, ?_⟩
  · intro kb d id date h
    constructor <;> simp [addDocument, h]
  · intro kb f h
    simp [removeDocument, h]

theorem C5_witness :
    isFrameworkName fwUpload.name = true ∧
    (addDocument emptyKB fwUpload 1 []).designFramework =
      some (mkKDoc fwUpload 1 []) ∧
    (addDocument emptyKB fwUpload 1 []).documents = emptyKB.documents ∧
    kbFw.designFramework = some (mkKDoc fwUpload 1 []) ∧
    (removeDocument kbFw (mkKDoc fwUpload 1 []).id).designFramework = none ∧
    frameworkCount (runOps [KBOp.add fwUpload 1 []]) ≤ 1 :=
  ⟨by decide,
   (C5_framework_exclusive.2.1 emptyKB fwUpload 1 [] (by decide)).1,
   (C5_framework_exclusive.2.1 emptyKB fwUpload 1 [] (by decide)).2,
   by decide,
   C5_framework_exclusive.2.2 kbFw (mkKDoc fwUpload 1 []) (by decide),
   C5_framework_exclusive.1 [KBOp.add fwUpload 1 []]⟩

theorem find_update {K V : Type} [DecidableEq K] (k : K) (e : CEntry V) :
    ∀ (m : List (K × CEntry V)), m.any (fun p => decide (p.1 = k)) = true →
      (m.map (fun p => if p.1 = k then (k, e) else p)).find?
        (fun p => decide (p.1 = k)) = some (k, e)
  | [], h => by simp at h
  | q :: m, h => by
    by_cases hq : q.1 = k
    · simp [hq]
    · have hm : m.any (fun p => decide (p.1 = k)) = true := by
        simpa [hq] using h
      simp only [List.map_cons, if_neg hq]
      rw [List.find?_cons_of_neg _ (by simpa using hq)]
      exact find_update k e m hm

theorem find_append_single {K V : Type} [DecidableEq K] (k : K)
    (e : CEntry V) :
    ∀ (m : List (K × CEntry V)), (∀ p ∈ m, p.1 ≠ k) →
      (m ++ [(k, e)]).find? (fun p => decide (p.1 = k)) = some (k, e)
  | [], _ => by simp
  | q :: m, h => by
    simp only [List.cons_append]
    rw [List.find?_cons_of_neg _ (by simpa using h q (List.mem_cons_self q m))]
    exact find_append_single k e m
      (fun p hp => h p (List.mem_cons_of_mem q hp))

/-- JS `Map.set` followed by `Map.get` on the same key yields the stored
entry. -/
theorem mapGet_mapSet {K V : Type} [DecidableEq K]
    (m : List (K × CEntry V)) (k : K) (e : CEntry V) :
    mapGet (mapSet m k e) k = some e := by
  unfold mapGet mapSet
  by_cases h : m.any (fun p => decide (p.1 = k))
  · rw [if_pos h, find_update k e m h]
    rfl
  · rw [if_neg h, find_append_single k e m]
    · rfl
    · intro p hp
      have := List.any_eq_false.mp (Bool.not_eq_true _ ▸ h) p hp
      simpa using this

/-- C6: after `set(key, value, ttl)` at time `now`, a `get(key)` at a time
strictly less than `ttl` after the set returns exactly the stored value,
and a `get(key)` at a time `ttl` or more after the set returns `null`. -/
theorem C6_cache_roundtrip {K V : Type} [DecidableEq K] (st : CState K V)
    (k : K) (v : V) (ttl now now2 : Int) :
    (now2 - now < ttl →
      (get (CacheService.set st k v ttl now) k now2).1 = some v) ∧
    (ttl ≤ now2 - now →
      (get (CacheService.set st k v ttl now) k now2).1 = none) := by
  constructor <;> intro h
  · simp only [CacheService.set, CacheService.get, mapGet_mapSet]
    simp [h]
  · have h2 : ¬(now2 - now < ttl) := not_lt.mpr h
    simp only [CacheService.set, CacheService.get, getFromStorage,
      mapGet_mapSet]
    simp [h2]

theorem C6_witness :
    ((50 : Int) - 0 < 100 ∧
      (get (CacheService.set emptyCache 1 7 100 0) 1 50).1 = some 7) ∧
    ((100 : Int) ≤ 100 - 0 ∧
      (get (CacheService.set emptyCache 1 7 100 0) 1 100).1 = none) :=
  ⟨⟨by decide, (C6_cache_roundtrip emptyCache 1 7 100 0 50).1 (by decide)⟩,
   ⟨by decide, (C6_cache_roundtrip emptyCache 1 7 100 0 100).2 (by decide)⟩⟩

theorem length_mapSet_le {K V : Type} [DecidableEq K]
    (m : List (K × CEntry V)) (k : K) (e : CEntry V) :
    (mapSet m k e).length ≤ m.length + 1 := by
  unfold mapSet
  split
  · rw [List.length_map]
    omega
  · rw [List.length_append]
    simp

theorem foldl_mapDelete_eq_filter {K V : Type} [DecidableEq K] :
    ∀ (ks : List K) (m : List (K × CEntry V)),
      ks.foldl (fun m k => mapDelete m k) m =
        m.filter (fun p => decide (p.1 ∉ ks))
  | [], m => by simp
  | k :: ks, m => by
    rw [List.foldl_cons, foldl_mapDelete_eq_filter ks (mapDelete m k)]
    unfold mapDelete
    rw [List.filter_filter]
    apply List.filter_congr
    intro a _
    by_cases h1 : a.1 = k <;> by_cases h2 : a.1 ∈ ks <;> simp [h1, h2]

theorem length_filter_partition {α : Type} (p : α → Bool) :
    ∀ l : List α,
      (l.filter p).length + (l.filter (fun a => !(p a))).length = l.length
  | [] => rfl
  | a :: l => by
    have ih := length_filter_partition p l
    by_cases h : p a
    · simp [List.filter_cons, h]
      omega
    · have hb : p a = false := by simpa using h
      simp [List.filter_cons, hb]
      omega

/-- The eviction step of `cleanup`: however many entries the map holds, the
branch leaves at most `maxSize - 1` of them. -/
theorem evict_length_le {K V : Type} [DecidableEq K]
    (c1 : List (K × CEntry V)) :
    (if c1.length ≥ maxSize then
      ((List.insertionSort (fun a b => a.2.timestamp ≤ b.2.timestamp)
          c1).take (c1.length - maxSize + 1)).foldl
        (fun m p => mapDelete m p.1) c1
     else c1).length ≤ maxSize - 1 := by
  by_cases hfull : c1.length ≥ maxSize
  · rw [if_pos hfull]
    set sorted :=
      List.insertionSort (fun a b => a.2.timestamp ≤ b.2.timestamp) c1
      with hsorted
    set toRemove := sorted.take (c1.length - maxSize + 1) with htr
    set q : K × CEntry V → Bool :=
      fun p => decide (p.1 ∈ toRemove.map Prod.fst) with hqdef
    have hfold : toRemove.foldl (fun m p => mapDelete m p.1) c1 =
        c1.filter (fun p => decide (p.1 ∉ toRemove.map Prod.fst)) := by
      rw [← List.foldl_map, foldl_mapDelete_eq_filter]
    rw [hfold]
    have hsortlen : sorted.length = c1.length :=
      (List.perm_insertionSort _ _).length_eq
    have hm : maxSize = 50 := rfl
    have htr_len : toRemove.length = c1.length - maxSize + 1 := by
      rw [htr, List.length_take, hsortlen,
        Nat.min_eq_left (show c1.length - maxSize + 1 ≤ c1.length by omega)]
    have hcount : toRemove.length ≤ (c1.filter q).length := by
      have h1 : toRemove.filter q = toRemove := by
        apply List.filter_eq_self.mpr
        intro p hp
        rw [hqdef]
        simpa using List.mem_map_of_mem Prod.fst hp
      have h2 := ((List.take_sublist (c1.length - maxSize + 1)
        sorted).filter q).length_le
      have h3 : (sorted.filter q).length = (c1.filter q).length :=
        ((List.perm_insertionSort _ _).filter _).length_eq
      rw [← htr, h1] at h2
      omega
    have hpart := length_filter_partition q c1
    have hneg : c1.filter (fun p => decide (p.1 ∉ toRemove.map Prod.fst)) =
        c1.filter (fun a => !(q a)) := by
      apply List.filter_congr
      intro a _
      rw [hqdef]
      simp
    rw [hneg]
    omega
  · rw [if_neg hfull]
    omega

/-- `cleanup` leaves strictly fewer than `maxSize` entries in the memory
map: expired entries are removed and, if the map still holds `maxSize` or
more entries, the `size - maxSize + 1` oldest are evicted. -/
theorem cleanup_length_le {K V : Type} [DecidableEq K] (st : CState K V)
    (now : Int) : (cleanup st now).cache.length ≤ maxSize - 1 := by
  have hc : (cleanup st now).cache =
      (let c1 := ((st.cache.filter
          (fun p => decide (now - p.2.timestamp ≥ p.2.ttl))).map (·.1)).foldl
            (fun m k => mapDelete m k) st.cache
       if c1.length ≥ maxSize then
         ((List.insertionSort (fun a b => a.2.timestamp ≤ b.2.timestamp)
             c1).take (c1.length - maxSize + 1)).foldl
           (fun m p => mapDelete m p.1) c1
       else c1) := rfl
  rw [hc]
  exact evict_length_le _

/-- C10: after every `set`, the in-memory cache holds at most
`maxSize = 50` entries: a full cache is cleaned up (expired entries
removed, then oldest evicted) before the insertion. -/
theorem C10_set_respects_maxSize {K V : Type} [DecidableEq K]
    (st : CState K V) (k : K) (v : V) (ttl now : Int) :
    (CacheService.set st k v ttl now).cache.length ≤ maxSize := by
  have hc : (CacheService.set st k v ttl now).cache =
      mapSet (if st.cache.length ≥ maxSize then cleanup st now else st).cache
        k ⟨v, now, ttl⟩ := rfl
  rw [hc]
  by_cases hfull : st.cache.length ≥ maxSize
  · rw [if_pos hfull]
    have h1 := cleanup_length_le st now
    have h2 := length_mapSet_le (cleanup st now).cache k
      (⟨v, now, ttl⟩ : CEntry V)
    have hms : (1 : Nat) ≤ maxSize := by norm_num [maxSize]
    omega
  · rw [if_neg hfull]
    have h2 := length_mapSet_le st.cache k (⟨v, now, ttl⟩ : CEntry V)
    omega

/-- C9: the PowerPoint parse caller raises an error exactly when the HTTP
response is not 2xx, or the text content is absent, or the content is
shorter than 50 characters; content of length ≥ 50 on a 2xx response is
accepted. -/
theorem C9_parse_failure_iff (resp : ParseResponse) :
    (handleParseResponse resp).isOk = true ↔
      resp.ok = true ∧ ∃ s, resp.text_content = some s ∧ 50 ≤ s.length := by
  unfold handleParseResponse
  cases hok : resp.ok
  · simp [Except.isOk, Except.toBool]
  · cases htc : resp.text_content
    · simp [Except.isOk, Except.toBool]
    · rename_i s
      by_cases hlen : s.length < 50
      · have hlen2 : ¬ (50 ≤ s.length) := by omega
        have hcond : (s.isEmpty || decide (s.length < 50)) = true := by
          simp [hlen]
        simp [hcond, Except.isOk, Except.toBool, hlen2]
      · have hlen2 : 50 ≤ s.length := by omega
        have hne : s.isEmpty = false := by
          rcases s with _ | ⟨c, s2⟩
          · simp at hlen
          · rfl
        have hcond : (s.isEmpty || decide (s.length < 50)) = false := by
          simp [hne, hlen]
        simp [hcond, Except.isOk, Except.toBool, hlen2]

theorem C9_witness :
    goodResp.ok = true ∧
    goodResp.text_content = some (List.replicate 60 'a') ∧
    50 ≤ (List.replicate 60 'a').length ∧
    (handleParseResponse goodResp).isOk = true :=
  ⟨rfl, rfl, by simp,
   (C9_parse_failure_iff goodResp).mpr
     ⟨rfl, List.replicate 60 'a', rfl, by simp⟩⟩

/-- C7 (modelled from the spec, §4.3): a title-layout slide with identical
word count and element counts scores exactly 10 points lower than a
non-title slide. -/
theorem C7_title_penalty (s1 s2 : SlideRec)
    (hw : wordCount s1 = wordCount s2)
    (htb : s1.textBoxCount = s2.textBoxCount)
    (hsh : s1.shapeCount = s2.shapeCount)
    (him : s1.imageCount = s2.imageCount)
    (hch : s1.chartCount = s2.chartCount)
    (hta : s1.tableCount = s2.tableCount)
    (h1 : strContains (lowerL s1.layout) "title".data = true)
    (h2 : strContains (lowerL s2.layout) "title".data = false) :
    scoreSlide s1 = scoreSlide s2 - 10 := by
  unfold scoreSlide
  rw [hw, htb, hsh, him, hch, hta, h1, h2]
  simp

theorem C7_witness :
    wordCount titleSlide = wordCount contentSlide ∧
    titleSlide.textBoxCount = contentSlide.textBoxCount ∧
    titleSlide.shapeCount = contentSlide.shapeCount ∧
    titleSlide.imageCount = contentSlide.imageCount ∧
    titleSlide.chartCount = contentSlide.chartCount ∧
    titleSlide.tableCount = contentSlide.tableCount ∧
    strContains (lowerL titleSlide.layout) "title".data = true ∧
    strContains (lowerL contentSlide.layout) "title".data = false ∧
    scoreSlide titleSlide = scoreSlide contentSlide - 10 :=
  ⟨by decide, by decide, by decide, by decide, by decide, by decide,
   by decide, by decide,
   C7_title_penalty titleSlide contentSlide (by decide) (by decide)
     (by decide) (by decide) (by decide) (by decide) (by decide) (by decide)⟩

/-- C8 counterexample: with history `[{role: "user", content: "hi"}]` the
context renders the entry as `Designer: hi`, so the rendering
`role ++ ": " ++ content` (`user: hi`) claimed by the spec does not occur
in the context string. -/
theorem C8_counterexample :
    buildChatContext emptyKB [] none [userMsg] =
      "RECENT CONVERSATION:\nDesigner: hi\n\n".data ∧
    strContains (buildChatContext emptyKB [] none [userMsg])
      (userMsg.role ++ ": ".data ++ userMsg.content) = false := by
  constructor
  · rfl
  · decide

/-- C8 (amended): for non-empty history the context ends with the history
section containing exactly the last `min(6, length)` entries, each rendered
by `historyLine` (`Designer`/`AI` label, then `": "`, then the content). -/
theorem C8_history_section (kb : KB) (query : Str) (analysis : Option JValue)
    (history : List ChatMsg) (h : history.length > 0) :
    List.IsSuffix
      ("RECENT CONVERSATION:\n".data ++
        ((lastN 6 history).map historyLine).flatten ++ "\n".data)
      (buildChatContext kb query analysis history) := by
  unfold buildChatContext
  simp only [h, if_true, gt_iff_lt]
  exact ⟨_, rfl⟩

theorem C8_witness :
    ([userMsg] : List ChatMsg).length > 0 ∧
    List.IsSuffix
      ("RECENT CONVERSATION:\n".data ++
        ((lastN 6 [userMsg]).map historyLine).flatten ++ "\n".data)
      (buildChatContext emptyKB [] none [userMsg]) :=
  ⟨by decide, C8_history_section emptyKB [] none [userMsg] (by decide)⟩

/-- C4: evaluating `buildChatContext` on an analysis object carrying a
non-empty slide list shows the context holds only the primary
classification and the JSON truncation — no slide-quality summary (in
particular not the `SLIDE QUALITY SUMMARY` section that
`chatService.decorateUserMessage` tells the model to consult). -/
theorem C4_no_slide_summary :
    getField analysisWithSlides "slides".data =
      some (JValue.arr [JValue.obj [("slideNumber".data, JValue.num 1)]]) ∧
    buildChatContext emptyKB [] (some analysisWithSlides) [] =
      ("CURRENT PRESENTATION ANALYSIS:\nPresentation Type: Executive\nKey Insights: \x7b\n  \"presentationType\": \x7b\n    \"primary\": \"Executive\"\n  \x7d,\n  \"slides\": [\n    \x7b\n      \"slideNumber\": 1\n    \x7d\n  ]\n\x7d\n\n").data ∧
    strContains (buildChatContext emptyKB [] (some analysisWithSlides) [])
      "SLIDE QUALITY SUMMARY".data = false := by
  refine ⟨rfl, rfl, ?_⟩
  decide
